import Mathlib

/-!
Verification of the CryptoNova Ensemble Forecasting & Portfolio Analytics
Engine.  The portfolio-analytics functions are shallow embeddings of the
TypeScript in `src/components/PortfolioAnalytics.tsx`; prices and amounts
are modelled as rationals.  The ML backend (`ml_models/app.py`) is not part
of the shipped sources, so the Ensemble Fuser and Forecast Generator are
modelled from the specification (each such definition is marked).
-/

namespace CryptoNova

/-- An asset held in the portfolio (`Asset` of the data model: symbol,
amount held, purchase price, current price; the purchase date plays no
role in any analytics computation and is omitted). -/
structure Asset where
  symbol : String
  amount : ℚ
  purchasePrice : ℚ
  currentPrice : ℚ
deriving DecidableEq

/-- One step of a future price path (`future_predictions` entry of
`PredictionData`; the `date` string is display-only and omitted). -/
structure FuturePrediction where
  predicted_price : ℚ
  confidence : ℚ
deriving DecidableEq

/-- The `PredictionData` interface of `PortfolioAnalytics.tsx` (lines 21-38):
three per-model point predictions plus the future path.  The `confidences`
record is rendered only and never used by the analytics functions, so it is
omitted here. -/
structure PredictionData where
  lstm : ℚ
  linear_regression : ℚ
  random_forest : ℚ
  future_predictions : List FuturePrediction
deriving DecidableEq

/-- A recommendation (`{type, message, priority}` in the source).  The
`message` is a display string that interpolates the concerned asset's
symbol; it is abstracted here to that symbol (empty for the portfolio-level
diversification rule). -/
structure Recommendation where
  type : String
  priority : String
  symbol : String
deriving DecidableEq

/-- JavaScript truthiness fallback `x || c` applied to a number: `0` is
falsy and falls back to the default (`NaN`/`undefined` are not modelled;
the component's `PredictionData` interface declares the fields as required
numbers). -/
def orFallback (x c : ℚ) : ℚ := if x = 0 then c else x

/-- `calculateRiskLevel` (PortfolioAnalytics.tsx lines 150-161): mean
absolute relative price change across assets, thresholded. -/
def calculateRiskLevel (assets : List Asset) : String :=
  if assets.length = 0 then "Low"
  else
    let volatility :=
      (assets.foldl (fun sum asset =>
        sum + |(asset.currentPrice - asset.purchasePrice) / asset.purchasePrice|) 0)
      / (assets.length : ℚ)
    if volatility > 1/2 then "High"
    else if volatility > 1/5 then "Medium"
    else "Low"

/-- The mean absolute relative price change of a portfolio (the
`volatility` local of `calculateRiskLevel`), named so the threshold
behaviour can be stated. -/
def meanAbsChange (assets : List Asset) : ℚ :=
  (assets.foldl (fun sum asset =>
    sum + |(asset.currentPrice - asset.purchasePrice) / asset.purchasePrice|) 0)
  / (assets.length : ℚ)

/-- `calculateDiversificationScore` (lines 163-168): step function of the
asset count. -/
def calculateDiversificationScore (assets : List Asset) : ℕ :=
  if assets.length ≤ 1 then 25
  else if assets.length ≤ 3 then 50
  else if assets.length ≤ 5 then 75
  else 90

/-- The per-asset performance percentage
`((currentPrice − purchasePrice) / purchasePrice) * 100` used inline by
`getTopPerformer` (line 189). -/
def performance (a : Asset) : ℚ :=
  (a.currentPrice - a.purchasePrice) / a.purchasePrice * 100

/-- The bare relative gain `(currentPrice − purchasePrice) / purchasePrice`
(the quantity the specification says the top performer maximises). -/
def priceChangeFrac (a : Asset) : ℚ :=
  (a.currentPrice - a.purchasePrice) / a.purchasePrice

/-- The reducer of `getTopPerformer` (lines 188-192): keep the incoming
asset when its performance strictly exceeds the best so far, keeping the
earlier asset on ties (the `best ? … : -Infinity` guard is vacuous since
`best` is always an object). -/
def topStep (best asset : Asset) : Asset :=
  if performance asset > performance best then asset else best

/-- `getTopPerformer` (lines 185-193): `null` on an empty portfolio,
otherwise a JavaScript `reduce` without initial value (the head seeds the
fold over the tail). -/
def getTopPerformer (assets : List Asset) : Option Asset :=
  match assets with
  | [] => none
  | a :: rest => some (rest.foldl topStep a)

/-- `calculatePredictedPortfolioValue` (lines 170-183): for each asset with
a prediction, average the three model prices with `|| currentPrice`
fallback on each and weight by the amount; assets without a prediction
contribute `amount * currentPrice`.  The prediction map (a JavaScript
object keyed by symbol) is modelled as an association list. -/
def calculatePredictedPortfolioValue (assets : List Asset)
    (predictionData : List (String × PredictionData)) : ℚ :=
  assets.foldl (fun total asset =>
    match predictionData.lookup asset.symbol with
    | some prediction =>
      let avgPrediction :=
        (orFallback prediction.lstm asset.currentPrice
          + orFallback prediction.random_forest asset.currentPrice
          + orFallback prediction.linear_regression asset.currentPrice) / 3
      total + asset.amount * avgPrediction
    | none => total + asset.amount * asset.currentPrice) 0

/-- The opportunity/warning rule applied to one asset and its prediction
(the body of the `Object.entries(predictionData).forEach` loop of
`generateRecommendations`, lines 237-255, once the asset has been found):
take the final future-path price, compute the percentage change against the
current price, and emit at most one recommendation. -/
def assetRec (asset : Asset) (d : PredictionData) : Option Recommendation :=
  match d.future_predictions.getLast? with
  | none => none
  | some fp =>
    let predictedChange :=
      (fp.predicted_price - asset.currentPrice) / asset.currentPrice * 100
    if predictedChange > 20 then
      some { type := "opportunity", priority := "high", symbol := asset.symbol }
    else if predictedChange < -15 then
      some { type := "warning", priority := "high", symbol := asset.symbol }
    else none

/-- One iteration of the ML-recommendation loop of
`generateRecommendations` (lines 235-256): look the entry's symbol up in
the portfolio, and apply the opportunity/warning rule when the asset is
found. -/
def mlEntry (assets : List Asset) (sp : String × PredictionData) :
    List Recommendation :=
  match assets.find? (fun a => a.symbol == sp.1) with
  | none => []
  | some asset => (assetRec asset sp.2).toList

/-- `generateRecommendations` (lines 210-259): diversification check, then
concentration check, then the per-entry opportunity/warning loop over the
prediction map. `totalValue` is `portfolio.totalValue`, supplied by the
excluded portfolio-context layer. -/
def generateRecommendations (assets : List Asset) (totalValue : ℚ)
    (predictionData : List (String × PredictionData)) : List Recommendation :=
  (if assets.length < 3 then
    [{ type := "diversification", priority := "high", symbol := "" }]
  else [])
  ++ (match assets.find?
        (fun a => decide (a.amount * a.currentPrice / totalValue > 3/5)) with
      | some dominantAsset =>
        [{ type := "concentration", priority := "medium",
           symbol := dominantAsset.symbol }]
      | none => [])
  ++ predictionData.flatMap (mlEntry assets)

/-- The prediction map assembled by `fetchPredictions` (lines 99-106):
`Promise.all` preserves the order of `portfolio.assets`, and per-asset
failures (caught at lines 93-96 and returned as `data: null`) are dropped,
so the resulting object holds, in asset order, one entry per asset whose
fetch succeeded. -/
def buildPredictions (assets : List Asset)
    (outcome : Asset → Option PredictionData) :
    List (String × PredictionData) :=
  assets.filterMap (fun asset => (outcome asset).map (fun d => (asset.symbol, d)))

/-- The three predictor variants of the ensemble (`model_kind` of the data
model). -/
inductive ModelKind where
  | sequence
  | tree_ensemble
  | linear
deriving DecidableEq

/-- A single model's output (`ModelPrediction` of the data model). -/
structure ModelPrediction where
  predicted_price : ℚ
  confidence : ℚ
deriving DecidableEq

/-- The fused estimate produced by the Ensemble Fuser. -/
structure Fused where
  fused_price : ℚ
  fused_confidence : ℚ
deriving DecidableEq

/-- Failure of the Ensemble Fuser. -/
inductive FuseError where
  | NoModelsAvailableError
deriving DecidableEq

/-- The predictions present in a mapping of model kind to optional
prediction, enumerated over the three kinds. -/
def presentPredictions (preds : ModelKind → Option ModelPrediction) :
    List ModelPrediction :=
  [ModelKind.sequence, ModelKind.tree_ensemble, ModelKind.linear].filterMap preds

/-- Modelled from the spec: the Ensemble Fuser's `fuse` lives in the ML
backend (`ml_models/app.py`), which is not among the shipped sources; §4.3
of the spec defines it: fused price and fused confidence are the
arithmetic means over the *present* predictions only (absent models are
excluded, not defaulted), and an empty mapping is a hard
`NoModelsAvailableError`. -/
def fuse (preds : ModelKind → Option ModelPrediction) : Except FuseError Fused :=
  let ps := presentPredictions preds
  if ps.length = 0 then .error .NoModelsAvailableError
  else
    .ok { fused_price := (ps.map ModelPrediction.predicted_price).sum / (ps.length : ℚ),
          fused_confidence := (ps.map ModelPrediction.confidence).sum / (ps.length : ℚ) }

/-- Failure of the Forecast Generator. -/
inductive HorizonError where
  | InvalidHorizonError
deriving DecidableEq

/-- Modelled from the spec: the Forecast Generator's per-day confidence
decay constant (§4.4, "e.g., 0.5 per day"). -/
def decayRate : ℚ := 1/2

/-- One step of the generated future path (the `date`, a calendar day
string, is abstracted away; steps are returned in day order). -/
structure PathStep where
  predicted_price : ℚ
  confidence : ℚ
deriving DecidableEq

/-- Modelled from the spec: the Forecast Generator's `generate_path` lives
in the ML backend (`ml_models/app.py`), which is not among the shipped
sources; §4.4 of the spec defines it: for step `i` (1-indexed, `i` up to
`horizon_days`), `predicted_price[i] = current_price + (fused_price −
current_price) · (i / horizon_days)` and
`confidence[i] = max(50, fused_confidence − decay_rate·i)`; a non-positive
horizon is an `InvalidHorizonError`. -/
def generate_path (current_price fused_price fused_confidence : ℚ)
    (horizon_days : ℤ) : Except HorizonError (List PathStep) :=
  if horizon_days ≤ 0 then .error .InvalidHorizonError
  else
    .ok ((List.range horizon_days.toNat).map (fun (j : ℕ) =>
      let i : ℚ := (j : ℚ) + 1
      { predicted_price :=
          current_price + (fused_price - current_price) * (i / (horizon_days : ℚ)),
        confidence := max 50 (fused_confidence - decayRate * i) }))

/-! Sample data used by witness theorems. -/

/-- Sample asset: bought at 100, now 150 (+50 %). -/
def wA : Asset := ⟨"BTC", 2, 100, 150⟩

/-- Sample asset: bought at 50, now 40 (−20 %). -/
def wB : Asset := ⟨"ETH", 3, 50, 40⟩

/-- Sample asset: bought at 10, now 11 (+10 %). -/
def wC : Asset := ⟨"ADA", 1, 10, 11⟩

/-- Sample asset: bought at 20, now 22 (+10 %). -/
def wD : Asset := ⟨"SOL", 4, 20, 22⟩

/-- Sample asset: bought at 5, now 6 (+20 %). -/
def wE : Asset := ⟨"DOT", 5, 5, 6⟩

/-- Sample asset: bought at 1, still 1 (0 %). -/
def wF : Asset := ⟨"XRP", 6, 1, 1⟩

/-- C10: on an empty portfolio every aggregation operation is total and
returns a defined value: the risk level is "Low" (the empty-list guard
makes the division-by-zero branch unreachable), the diversification score
is 25, and the top-performer computation returns `none` rather than
reducing over an empty list. -/
theorem C10_empty_portfolio_total :
    calculateRiskLevel [] = "Low" ∧ calculateDiversificationScore [] = 25 ∧
      getTopPerformer [] = none :=
  ⟨rfl, rfl, rfl⟩

/-- C6: the diversification score is exactly the step function of asset
count — 1 asset gives 25, 2–3 assets give 50, 4–5 assets give 75, and 6 or
more give 90 — and is monotonically non-decreasing in asset count. -/
theorem C6_diversification_score (assets assets2 : List Asset) :
    (assets.length = 1 → calculateDiversificationScore assets = 25) ∧
    (2 ≤ assets.length → assets.length ≤ 3 →
      calculateDiversificationScore assets = 50) ∧
    (4 ≤ assets.length → assets.length ≤ 5 →
      calculateDiversificationScore assets = 75) ∧
    (6 ≤ assets.length → calculateDiversificationScore assets = 90) ∧
    (assets.length ≤ assets2.length →
      calculateDiversificationScore assets ≤ calculateDiversificationScore assets2) := by
  unfold calculateDiversificationScore
  refine ⟨?_, ?_, ?_, ?_, ?_⟩ <;> intros <;> split_ifs <;> omega

/-- Witness for C6 at asset counts 1, 2, 4 and 6. -/
theorem C6_diversification_score_witness :
    calculateDiversificationScore [wA] = 25 ∧
    calculateDiversificationScore [wA, wB] = 50 ∧
    calculateDiversificationScore [wA, wB, wC, wD] = 75 ∧
    calculateDiversificationScore [wA, wB, wC, wD, wE, wF] = 90 ∧
    calculateDiversificationScore [wA] ≤ calculateDiversificationScore [wA, wB] :=
  ⟨(C6_diversification_score [wA] []).1 rfl,
   (C6_diversification_score [wA, wB] []).2.1 (by decide) (by decide),
   (C6_diversification_score [wA, wB, wC, wD] []).2.2.1 (by decide) (by decide),
   (C6_diversification_score [wA, wB, wC, wD, wE, wF] []).2.2.2.1 (by decide),
   (C6_diversification_score [wA] [wA, wB]).2.2.2.2 (by decide)⟩

/-- Counterexample to C3 as stated: a one-asset portfolio with mean
absolute change exactly 0.5 is classified "Medium" (not "High" as the
claim requires), and one with mean absolute change exactly 0.2 is
classified "Low" (not "Medium"): the code compares with strict `>`, so
both boundary values fall into the lower class. -/
theorem C3_risk_boundary_counterexample :
    meanAbsChange [⟨"BTC", 1, 2, 3⟩] = 1/2 ∧
    calculateRiskLevel [⟨"BTC", 1, 2, 3⟩] ≠ "High" ∧
    meanAbsChange [⟨"ADA", 1, 5, 6⟩] = 1/5 ∧
    calculateRiskLevel [⟨"ADA", 1, 5, 6⟩] ≠ "Medium" := by
  have h1 : calculateRiskLevel [⟨"BTC", 1, 2, 3⟩] = "Medium" := by
    norm_num [calculateRiskLevel, abs_of_pos]
  have h2 : calculateRiskLevel [⟨"ADA", 1, 5, 6⟩] = "Low" := by
    norm_num [calculateRiskLevel, abs_of_pos]
  refine ⟨by norm_num [meanAbsChange, abs_of_pos], by rw [h1]; decide,
    by norm_num [meanAbsChange, abs_of_pos], by rw [h2]; decide⟩

/-- The risk level, written as a function of the named mean absolute
change, for a non-empty portfolio. -/
lemma calculateRiskLevel_eq (assets : List Asset) (h : assets.length ≠ 0) :
    calculateRiskLevel assets =
      if meanAbsChange assets > 1/2 then "High"
      else if meanAbsChange assets > 1/5 then "Medium" else "Low" := by
  unfold calculateRiskLevel meanAbsChange
  rw [if_neg h]

/-- C3 (amended): for every non-empty portfolio, with v the mean over
assets of |(current_price − purchase_price)/purchase_price|, the risk
level is "Low" when v ≤ 0.2, "Medium" when 0.2 < v ≤ 0.5, and "High" when
v > 0.5 — both comparisons are strict, so v exactly 0.5 is "Medium" and v
exactly 0.2 is "Low". -/
theorem C3_risk_thresholds (assets : List Asset) (h : assets ≠ []) :
    (meanAbsChange assets ≤ 1/5 → calculateRiskLevel assets = "Low") ∧
    (1/5 < meanAbsChange assets → meanAbsChange assets ≤ 1/2 →
      calculateRiskLevel assets = "Medium") ∧
    (1/2 < meanAbsChange assets → calculateRiskLevel assets = "High") := by
  have hlen : assets.length ≠ 0 := fun hl => h (List.length_eq_zero.mp hl)
  rw [calculateRiskLevel_eq assets hlen]
  refine ⟨?_, ?_, ?_⟩ <;> intros <;> split_ifs <;> first | rfl | linarith

/-- Witness for C3 (amended) on a one-asset portfolio with mean absolute
change 1/10. -/
theorem C3_risk_thresholds_witness :
    meanAbsChange [wC] ≤ 1/5 ∧ calculateRiskLevel [wC] = "Low" :=
  ⟨by norm_num [meanAbsChange, wC, abs_of_pos],
   (C3_risk_thresholds [wC] (by decide)).1
     (by norm_num [meanAbsChange, wC, abs_of_pos])⟩

/-- The result of the top-performer fold is one of the candidates. -/
lemma foldl_topStep_mem (a : Asset) (l : List Asset) :
    l.foldl topStep a ∈ a :: l := by
  induction l generalizing a with
  | nil => simp
  | cons x xs ih =>
    rw [List.foldl_cons]
    have h := ih (topStep a x)
    rw [List.mem_cons] at h
    rcases h with h | h
    · rw [h]
      unfold topStep
      split
      · simp
      · simp
    · simp [h]

/-- The result of the top-performer fold dominates every candidate's
performance. -/
lemma foldl_topStep_ge (a : Asset) (l : List Asset) :
    ∀ b ∈ a :: l, performance b ≤ performance (l.foldl topStep a) := by
  induction l generalizing a with
  | nil =>
    intro b hb
    rw [List.mem_singleton] at hb
    subst hb
    exact le_refl _
  | cons x xs ih =>
    intro b hb
    rw [List.foldl_cons]
    have key := ih (topStep a x)
    have hstep_a : performance a ≤ performance (topStep a x) := by
      unfold topStep
      split_ifs with hgt
      · exact le_of_lt hgt
      · exact le_refl _
    have hstep_x : performance x ≤ performance (topStep a x) := by
      unfold topStep
      split_ifs with hgt
      · exact le_refl _
      · exact le_of_not_lt hgt
    rcases List.mem_cons.mp hb with rfl | hb2
    · exact le_trans hstep_a (key _ (List.mem_cons_self _ _))
    · rcases List.mem_cons.mp hb2 with rfl | hb3
      · exact le_trans hstep_x (key _ (List.mem_cons_self _ _))
      · exact key b (List.mem_cons_of_mem _ hb3)

/-- C7: for every non-empty portfolio the top performer is an asset of the
portfolio maximizing (current_price − purchase_price)/purchase_price (no
other asset has a strictly greater value of that quantity), and on an
empty portfolio the top performer is absent. -/
theorem C7_top_performer (assets : List Asset) :
    (assets = [] → getTopPerformer assets = none) ∧
    (assets ≠ [] → ∃ t, getTopPerformer assets = some t ∧ t ∈ assets ∧
      ∀ b ∈ assets, priceChangeFrac b ≤ priceChangeFrac t) := by
  constructor
  · intro h
    rw [h]
    rfl
  · intro h
    match assets with
    | [] => exact absurd rfl h
    | a :: rest =>
      refine ⟨rest.foldl topStep a, rfl, foldl_topStep_mem a rest, ?_⟩
      intro b hb
      have hperf := foldl_topStep_ge a rest b hb
      have : priceChangeFrac b * 100 ≤ priceChangeFrac (rest.foldl topStep a) * 100 := hperf
      linarith

/-- Witness for C7 on a three-asset portfolio whose top performer is the
+50 % asset. -/
theorem C7_top_performer_witness :
    ∃ t, getTopPerformer [wA, wB, wC] = some t ∧ t ∈ [wA, wB, wC] ∧
      ∀ b ∈ [wA, wB, wC], priceChangeFrac b ≤ priceChangeFrac t :=
  (C7_top_performer [wA, wB, wC]).2 (by decide)

/-- One asset's contribution to the predicted portfolio value: the body of
the `reduce` of `calculatePredictedPortfolioValue`, without the running
total. -/
def predictedContribution (predictionData : List (String × PredictionData))
    (asset : Asset) : ℚ :=
  match predictionData.lookup asset.symbol with
  | some prediction =>
    asset.amount *
      ((orFallback prediction.lstm asset.currentPrice
        + orFallback prediction.random_forest asset.currentPrice
        + orFallback prediction.linear_regression asset.currentPrice) / 3)
  | none => asset.amount * asset.currentPrice

/-- A left fold accumulating additions is the initial value plus the sum
of the mapped list. -/
lemma foldl_add_map (f : Asset → ℚ) (l : List Asset) (c : ℚ) :
    l.foldl (fun t a => t + f a) c = c + (l.map f).sum := by
  induction l generalizing c with
  | nil => simp
  | cons x xs ih =>
    rw [List.foldl_cons, ih, List.map_cons, List.sum_cons]
    ring

/-- The predicted portfolio value is the sum of the per-asset
contributions. -/
lemma calculatePredictedPortfolioValue_eq_sum (assets : List Asset)
    (predictionData : List (String × PredictionData)) :
    calculatePredictedPortfolioValue assets predictionData =
      (assets.map (predictedContribution predictionData)).sum := by
  unfold calculatePredictedPortfolioValue
  have hbody :
      (fun (total : ℚ) (asset : Asset) =>
        match predictionData.lookup asset.symbol with
        | some prediction =>
          total + asset.amount *
            ((orFallback prediction.lstm asset.currentPrice
              + orFallback prediction.random_forest asset.currentPrice
              + orFallback prediction.linear_regression asset.currentPrice) / 3)
        | none => total + asset.amount * asset.currentPrice)
      = fun (t : ℚ) (a : Asset) => t + predictedContribution predictionData a := by
    funext t a
    unfold predictedContribution
    rcases predictionData.lookup a.symbol with _ | p
    · rfl
    · rfl
  rw [hbody, foldl_add_map, zero_add]

/-- Sample prediction data for the witness theorems: models forecast 110,
120 and 100 with an upward 4-step future path ending at 200 (+33 % vs
`wA`'s current price of 150). -/
def wPredA : PredictionData :=
  ⟨110, 100, 120, [⟨160, 80⟩, ⟨175, 75⟩, ⟨190, 70⟩, ⟨200, 65⟩]⟩

/-- Sample prediction data with a falling future path ending at 30 (−25 %
vs `wB`'s current price of 40). -/
def wPredB : PredictionData :=
  ⟨38, 35, 36, [⟨36, 80⟩, ⟨30, 75⟩]⟩

/-- Prediction data whose sequence-model price is exactly 0: falsy in
JavaScript, so the code coerces it to the asset's current price. -/
def wPredZero : PredictionData := ⟨0, 90, 120, []⟩

/-- Counterexample to C2 as stated: with a forecast whose lstm price is 0,
the code's `|| currentPrice` coercion replaces the 0 by 150, so the
contribution of `wA` (amount 2, current price 150) is
2 · (150 + 120 + 90)/3 = 240, not the claimed arithmetic mean of the
model-predicted prices 2 · (0 + 120 + 90)/3 = 140. -/
theorem C2_zero_price_counterexample :
    calculatePredictedPortfolioValue [wA] [("BTC", wPredZero)] = 240 ∧
    ([wA].map (fun a =>
      match [("BTC", wPredZero)].lookup a.symbol with
      | some p => a.amount * ((p.lstm + p.random_forest + p.linear_regression) / 3)
      | none => a.amount * a.currentPrice)).sum = 140 ∧
    calculatePredictedPortfolioValue [wA] [("BTC", wPredZero)] ≠
      ([wA].map (fun a =>
        match [("BTC", wPredZero)].lookup a.symbol with
        | some p => a.amount * ((p.lstm + p.random_forest + p.linear_regression) / 3)
        | none => a.amount * a.currentPrice)).sum := by
  have h1 : calculatePredictedPortfolioValue [wA] [("BTC", wPredZero)] = 240 := by
    norm_num [calculatePredictedPortfolioValue, List.lookup, wA, wPredZero, orFallback]
  have h2 : ([wA].map (fun a =>
      match [("BTC", wPredZero)].lookup a.symbol with
      | some p => a.amount * ((p.lstm + p.random_forest + p.linear_regression) / 3)
      | none => a.amount * a.currentPrice)).sum = 140 := by
    norm_num [List.lookup, wA, wPredZero]
  refine ⟨h1, h2, ?_⟩
  rw [h1, h2]
  norm_num

/-- C2 (amended): for every portfolio and every mapping of symbol to
forecast, the predicted portfolio value is the sum over assets of amount ×
the average of the three model-predicted prices, each zero (falsy) price
coerced to the asset's current_price, when a forecast for the asset's
symbol is present, and amount × current_price when none is present — an
asset without a forecast contributes exactly amount × current_price,
never zero; when every recorded model price is nonzero, that average is
the plain arithmetic mean of the three model-predicted prices. -/
theorem C2_predicted_portfolio_value_amended (assets : List Asset)
    (predictionData : List (String × PredictionData)) :
    (calculatePredictedPortfolioValue assets predictionData =
      (assets.map (fun a =>
        match predictionData.lookup a.symbol with
        | some p => a.amount * ((orFallback p.lstm a.currentPrice
            + orFallback p.random_forest a.currentPrice
            + orFallback p.linear_regression a.currentPrice) / 3)
        | none => a.amount * a.currentPrice)).sum) ∧
    ((∀ a ∈ assets, ∀ p, predictionData.lookup a.symbol = some p →
        p.lstm ≠ 0 ∧ p.random_forest ≠ 0 ∧ p.linear_regression ≠ 0) →
      calculatePredictedPortfolioValue assets predictionData =
        (assets.map (fun a =>
          match predictionData.lookup a.symbol with
          | some p => a.amount * ((p.lstm + p.random_forest + p.linear_regression) / 3)
          | none => a.amount * a.currentPrice)).sum) := by
  constructor
  · rw [calculatePredictedPortfolioValue_eq_sum]
    rfl
  · intro hnz
    rw [calculatePredictedPortfolioValue_eq_sum]
    congr 1
    apply List.map_congr_left
    intro a ha
    unfold predictedContribution
    rcases hp : predictionData.lookup a.symbol with _ | p
    · rfl
    · have h := hnz a ha p hp
      simp only [orFallback, if_neg h.1, if_neg h.2.1, if_neg h.2.2]

/-- Witness for C2 (amended): two assets, only the first has a forecast
(its model prices all nonzero); the second contributes amount ×
current_price and the plain-mean form applies. -/
theorem C2_predicted_portfolio_value_amended_witness :
    calculatePredictedPortfolioValue [wA, wB] [("BTC", wPredA)] =
      ([wA, wB].map (fun a =>
        match [("BTC", wPredA)].lookup a.symbol with
        | some p => a.amount * ((p.lstm + p.random_forest + p.linear_regression) / 3)
        | none => a.amount * a.currentPrice)).sum :=
  (C2_predicted_portfolio_value_amended [wA, wB] [("BTC", wPredA)]).2 (by
    intro a ha p hp
    fin_cases ha <;> simp_all [wA, wB, wPredA, List.lookup]
    all_goals norm_num [wPredA, ← hp])

/-- In a portfolio with pairwise-distinct symbols, the find-by-symbol of a
member asset returns that asset. -/
lemma find?_symbol_eq_some (assets : List Asset)
    (h : (assets.map Asset.symbol).Nodup) (a : Asset) (ha : a ∈ assets) :
    assets.find? (fun x => x.symbol == a.symbol) = some a := by
  induction assets with
  | nil => cases ha
  | cons x xs ih =>
    rw [List.map_cons, List.nodup_cons] at h
    rcases List.mem_cons.mp ha with rfl | ha2
    · rw [List.find?_cons_of_pos _ (by simp)]
    · rw [List.find?_cons_of_neg, ih h.2 ha2]
      have hne : x.symbol ≠ a.symbol := by
        intro he
        exact h.1 (he ▸ List.mem_map_of_mem Asset.symbol ha2)
      simp [hne]

/-- Two member assets with the same symbol are equal when symbols are
pairwise distinct. -/
lemma symbol_injOn (assets : List Asset) (h : (assets.map Asset.symbol).Nodup)
    {a b : Asset} (ha : a ∈ assets) (hb : b ∈ assets)
    (hs : a.symbol = b.symbol) : a = b :=
  List.inj_on_of_nodup_map h ha hb hs

/-- A symbol not held in the portfolio slice is not a key of the built
prediction map. -/
lemma lookup_buildPredictions_none (l : List Asset)
    (outcome : Asset → Option PredictionData) (s : String)
    (hs : s ∉ l.map Asset.symbol) :
    (buildPredictions l outcome).lookup s = none := by
  induction l with
  | nil => rfl
  | cons x xs ih =>
    rw [List.map_cons, List.mem_cons] at hs
    push_neg at hs
    unfold buildPredictions
    rcases ho : outcome x with _ | d
    · rw [List.filterMap_cons_none (by simp [ho])]
      exact ih hs.2
    · rw [List.filterMap_cons_some (b := (x.symbol, d)) (by simp [ho])]
      rw [List.lookup_cons]
      have hb : (s == x.symbol) = false := by simp [hs.1]
      rw [hb]
      exact ih hs.2

/-- Looking a member asset's symbol up in the built prediction map gives
exactly that asset's fetch outcome (symbols pairwise distinct). -/
lemma lookup_buildPredictions (assets : List Asset)
    (outcome : Asset → Option PredictionData)
    (h : (assets.map Asset.symbol).Nodup) (a : Asset) (ha : a ∈ assets) :
    (buildPredictions assets outcome).lookup a.symbol = outcome a := by
  induction assets with
  | nil => cases ha
  | cons x xs ih =>
    rw [List.map_cons, List.nodup_cons] at h
    unfold buildPredictions
    rcases List.mem_cons.mp ha with rfl | ha2
    · rcases ho : outcome a with _ | d
      · rw [List.filterMap_cons_none (by simp [ho])]
        exact lookup_buildPredictions_none xs outcome a.symbol h.1
      · rw [List.filterMap_cons_some (b := (a.symbol, d)) (by simp [ho])]
        simp
    · have hne : a.symbol ≠ x.symbol := by
        intro he
        exact h.1 (he ▸ List.mem_map_of_mem Asset.symbol ha2)
      rcases ho : outcome x with _ | d
      · rw [List.filterMap_cons_none (by simp [ho])]
        exact ih h.2 ha2
      · rw [List.filterMap_cons_some (b := (x.symbol, d)) (by simp [ho]),
          List.lookup_cons]
        have hb : (a.symbol == x.symbol) = false := by simp [hne]
        rw [hb]
        exact ih h.2 ha2

/-- The ML-recommendation loop over the built prediction map is the
per-asset rule applied in asset order (symbols pairwise distinct): each
entry finds back the asset it was built from. -/
lemma flatMap_mlEntry_buildPredictions (assets : List Asset)
    (outcome : Asset → Option PredictionData)
    (h : (assets.map Asset.symbol).Nodup) :
    (buildPredictions assets outcome).flatMap (mlEntry assets) =
      assets.filterMap (fun a => (outcome a).bind (assetRec a)) := by
  suffices haux : ∀ l : List Asset,
      (∀ a ∈ l, assets.find? (fun x => x.symbol == a.symbol) = some a) →
      (buildPredictions l outcome).flatMap (mlEntry assets) =
        l.filterMap (fun a => (outcome a).bind (assetRec a)) from
    haux assets (fun a ha => find?_symbol_eq_some assets h a ha)
  intro l hl
  induction l with
  | nil => rfl
  | cons x xs ih =>
    have hx := hl x (List.mem_cons_self x xs)
    have hxs := fun a ha => hl a (List.mem_cons_of_mem x ha)
    unfold buildPredictions
    rcases ho : outcome x with _ | d
    · rw [List.filterMap_cons_none (by simp [ho]),
        List.filterMap_cons_none (by simp [ho])]
      exact ih hxs
    · rw [List.filterMap_cons_some (b := (x.symbol, d)) (by simp [ho])]
      rw [List.flatMap_cons]
      unfold mlEntry
      rw [hx]
      rcases har : assetRec x d with _ | r
      · rw [List.filterMap_cons_none (by simp [ho, har])]
        simpa [har] using ih hxs
      · rw [List.filterMap_cons_some (b := r) (by simp [ho, har])]
        simp only [har, Option.toList_some, List.singleton_append]
        exact congrArg (List.cons r) (ih hxs)

/-- The recommendation pass over a prediction map built from per-asset
fetch outcomes: the two portfolio-level checks in order, then the
per-asset rule in asset order. -/
lemma generateRecommendations_decomp (assets : List Asset) (tv : ℚ)
    (outcome : Asset → Option PredictionData)
    (h : (assets.map Asset.symbol).Nodup) :
    generateRecommendations assets tv (buildPredictions assets outcome) =
      (if assets.length < 3 then
        [{ type := "diversification", priority := "high", symbol := "" }]
      else [])
      ++ (match assets.find?
            (fun a => decide (a.amount * a.currentPrice / tv > 3/5)) with
          | some dominantAsset =>
            [{ type := "concentration", priority := "medium",
               symbol := dominantAsset.symbol }]
          | none => [])
      ++ assets.filterMap (fun a => (outcome a).bind (assetRec a)) := by
  unfold generateRecommendations
  rw [flatMap_mlEntry_buildPredictions assets outcome h]

/-- Any output of the per-asset rule has priority "high", carries the
asset's symbol, and is an opportunity or a warning. -/
lemma assetRec_eq_some {a : Asset} {d : PredictionData} {r : Recommendation}
    (h : assetRec a d = some r) :
    r.priority = "high" ∧ r.symbol = a.symbol ∧
      (r.type = "opportunity" ∨ r.type = "warning") := by
  unfold assetRec at h
  split at h
  · cases h
  next fp heq =>
    have h2 : (if (fp.predicted_price - a.currentPrice) / a.currentPrice * 100 > 20 then
        some { type := "opportunity", priority := "high", symbol := a.symbol }
      else if (fp.predicted_price - a.currentPrice) / a.currentPrice * 100 < -15 then
        some { type := "warning", priority := "high", symbol := a.symbol }
      else (none : Option Recommendation)) = some r := h
    split_ifs at h2
    · cases h2
      exact ⟨rfl, rfl, Or.inl rfl⟩
    · cases h2
      exact ⟨rfl, rfl, Or.inr rfl⟩

/-- The per-asset rule, written as an explicit conditional once the final
future-path price is known. -/
lemma assetRec_spec (a : Asset) (d : PredictionData) (fp : FuturePrediction)
    (hfp : d.future_predictions.getLast? = some fp) :
    assetRec a d =
      (if (fp.predicted_price - a.currentPrice) / a.currentPrice * 100 > 20 then
        some { type := "opportunity", priority := "high", symbol := a.symbol }
      else if (fp.predicted_price - a.currentPrice) / a.currentPrice * 100 < -15 then
        some { type := "warning", priority := "high", symbol := a.symbol }
      else none) := by
  unfold assetRec
  rw [hfp]

/-- C8: the recommendation list is ordered — the diversification and
concentration recommendations form a prefix, and the per-asset
opportunity/warning recommendations that follow are the per-asset rule
mapped over the portfolio in asset order. -/
theorem C8_recommendation_order (assets : List Asset) (tv : ℚ)
    (outcome : Asset → Option PredictionData)
    (h : (assets.map Asset.symbol).Nodup) :
    ∃ pre, generateRecommendations assets tv (buildPredictions assets outcome) =
        pre ++ assets.filterMap (fun a => (outcome a).bind (assetRec a)) ∧
      (∀ r ∈ pre, r.type = "diversification" ∨ r.type = "concentration") ∧
      ∀ r ∈ assets.filterMap (fun a => (outcome a).bind (assetRec a)),
        r.type = "opportunity" ∨ r.type = "warning" := by
  refine ⟨(if assets.length < 3 then
      [{ type := "diversification", priority := "high", symbol := "" }]
    else [])
    ++ (match assets.find?
          (fun a => decide (a.amount * a.currentPrice / tv > 3/5)) with
        | some dominantAsset =>
          [{ type := "concentration", priority := "medium",
             symbol := dominantAsset.symbol }]
        | none => []), ?_, ?_, ?_⟩
  · rw [generateRecommendations_decomp assets tv outcome h, List.append_assoc]
  · intro r hr
    rw [List.mem_append] at hr
    rcases hr with hr | hr
    · left
      by_cases hlen : assets.length < 3
      · rw [if_pos hlen, List.mem_singleton] at hr
        rw [hr]
      · rw [if_neg hlen] at hr
        cases hr
    · right
      rcases hfind : assets.find?
          (fun a => decide (a.amount * a.currentPrice / tv > 3/5)) with _ | dom
      · rw [hfind] at hr
        cases hr
      · rw [hfind, List.mem_singleton] at hr
        rw [hr]
  · intro r hr
    rw [List.mem_filterMap] at hr
    obtain ⟨a, _, hfa⟩ := hr
    rcases ho : outcome a with _ | d
    · rw [ho] at hfa
      cases hfa
    · rw [ho, Option.some_bind] at hfa
      exact (assetRec_eq_some hfa).2.2

/-- Sample per-asset fetch outcome for the witness theorems: BTC and ETH
resolve, every other symbol's fetch fails. -/
def wOutcome : Asset → Option PredictionData := fun a =>
  if a.symbol = "BTC" then some wPredA
  else if a.symbol = "ETH" then some wPredB
  else none

/-- Witness for C8: two assets with forecasts, prefix is the
diversification and concentration recommendations. -/
theorem C8_recommendation_order_witness :
    ∃ pre, generateRecommendations [wA, wB] 420
        (buildPredictions [wA, wB] wOutcome) =
        pre ++ [wA, wB].filterMap (fun a => (wOutcome a).bind (assetRec a)) ∧
      (∀ r ∈ pre, r.type = "diversification" ∨ r.type = "concentration") ∧
      ∀ r ∈ [wA, wB].filterMap (fun a => (wOutcome a).bind (assetRec a)),
        r.type = "opportunity" ∨ r.type = "warning" :=
  C8_recommendation_order [wA, wB] 420 wOutcome (by decide)

/-- Membership in the recommendation list: a recommendation is either the
diversification item (asset count below 3), the concentration item (a
dominant asset was found), or an output of the per-asset rule for some
asset's successful fetch. -/
lemma mem_generateRecommendations_iff (assets : List Asset) (tv : ℚ)
    (outcome : Asset → Option PredictionData)
    (h : (assets.map Asset.symbol).Nodup) (r : Recommendation) :
    r ∈ generateRecommendations assets tv (buildPredictions assets outcome) ↔
      (assets.length < 3 ∧
        r = { type := "diversification", priority := "high", symbol := "" }) ∨
      (∃ dom, assets.find?
          (fun a => decide (a.amount * a.currentPrice / tv > 3/5)) = some dom ∧
        r = { type := "concentration", priority := "medium", symbol := dom.symbol }) ∨
      (∃ a ∈ assets, ∃ d, outcome a = some d ∧ assetRec a d = some r) := by
  rw [generateRecommendations_decomp assets tv outcome h]
  simp only [List.mem_append, List.mem_filterMap, Option.bind_eq_some]
  constructor
  · rintro ((hr | hr) | hr)
    · left
      by_cases hlen : assets.length < 3
      · rw [if_pos hlen, List.mem_singleton] at hr
        exact ⟨hlen, hr⟩
      · rw [if_neg hlen] at hr
        cases hr
    · right; left
      rcases hfind : assets.find?
          (fun a => decide (a.amount * a.currentPrice / tv > 3/5)) with _ | dom
      · rw [hfind] at hr
        cases hr
      · rw [hfind, List.mem_singleton] at hr
        exact ⟨dom, hfind, hr⟩
    · right; right
      obtain ⟨a, ha, d, hd, har⟩ := hr
      exact ⟨a, ha, d, hd, har⟩
  · rintro (⟨hlen, hr⟩ | ⟨dom, hfind, hr⟩ | ⟨a, ha, d, hd, har⟩)
    · left; left
      rw [if_pos hlen, List.mem_singleton]
      exact hr
    · left; right
      rw [hfind, List.mem_singleton]
      exact hr
    · right
      exact ⟨a, ha, d, hd, har⟩

/-- C4: the recommendation rules fire exactly as specified — the
diversification/high item iff the asset count is < 3; the
concentration/medium item iff some single asset's value exceeds 60 % of
total portfolio value; for each asset with a forecast, an
opportunity/high item iff the final future-path price exceeds
current_price by more than 20 %, and a warning/high item iff it is more
than 15 % below current_price; and no rule fires twice for the same asset
and type in one pass. -/
theorem C4_recommendation_rules (assets : List Asset) (tv : ℚ)
    (outcome : Asset → Option PredictionData)
    (h : (assets.map Asset.symbol).Nodup) (htv : 0 < tv)
    (hc : ∀ a ∈ assets, 0 < a.currentPrice) :
    ((∃ r ∈ generateRecommendations assets tv (buildPredictions assets outcome),
        r.type = "diversification" ∧ r.priority = "high") ↔ assets.length < 3) ∧
    ((∃ r ∈ generateRecommendations assets tv (buildPredictions assets outcome),
        r.type = "concentration" ∧ r.priority = "medium") ↔
      ∃ a ∈ assets, a.amount * a.currentPrice > 3/5 * tv) ∧
    (∀ a ∈ assets, ∀ d, outcome a = some d →
      ∀ fp, d.future_predictions.getLast? = some fp →
      ((∃ r ∈ generateRecommendations assets tv (buildPredictions assets outcome),
          r.type = "opportunity" ∧ r.priority = "high" ∧ r.symbol = a.symbol) ↔
        fp.predicted_price > 6/5 * a.currentPrice) ∧
      ((∃ r ∈ generateRecommendations assets tv (buildPredictions assets outcome),
          r.type = "warning" ∧ r.priority = "high" ∧ r.symbol = a.symbol) ↔
        fp.predicted_price < 17/20 * a.currentPrice)) ∧
    (generateRecommendations assets tv (buildPredictions assets outcome)).Pairwise
      (fun r r2 => ¬(r.type = r2.type ∧ r.symbol = r2.symbol)) := by
  refine ⟨?_, ?_, ?_, ?_⟩
  · constructor
    · rintro ⟨r, hr, htype, _⟩
      rcases (mem_generateRecommendations_iff assets tv outcome h r).mp hr with
        ⟨hlen, _⟩ | ⟨dom, _, hr2⟩ | ⟨a, _, d, _, har⟩
      · exact hlen
      · rw [hr2] at htype
        simp at htype
      · rcases (assetRec_eq_some har).2.2 with ht | ht <;> rw [htype] at ht <;>
          exact absurd ht (by decide)
    · intro hlen
      exact ⟨_, (mem_generateRecommendations_iff assets tv outcome h _).mpr
        (Or.inl ⟨hlen, rfl⟩), rfl, rfl⟩
  · constructor
    · rintro ⟨r, hr, htype, _⟩
      rcases (mem_generateRecommendations_iff assets tv outcome h r).mp hr with
        ⟨_, hr2⟩ | ⟨dom, hfind, _⟩ | ⟨a, _, d, _, har⟩
      · rw [hr2] at htype
        simp at htype
      · refine ⟨dom, List.mem_of_find?_eq_some hfind, ?_⟩
        have hp := List.find?_some hfind
        have hp2 := of_decide_eq_true hp
        calc 3/5 * tv = 3/5 * tv := rfl
          _ < dom.amount * dom.currentPrice := by
              rw [gt_iff_lt, lt_div_iff₀ htv] at hp2
              linarith
      · rcases (assetRec_eq_some har).2.2 with ht | ht <;> rw [htype] at ht <;>
          exact absurd ht (by decide)
    · rintro ⟨a, ha, hval⟩
      have hpred : (fun x => decide (x.amount * x.currentPrice / tv > 3/5)) a = true := by
        rw [decide_eq_true_iff, gt_iff_lt, lt_div_iff₀ htv]
        linarith
      have hfind : (assets.find?
          (fun x => decide (x.amount * x.currentPrice / tv > 3/5))).isSome := by
        rw [List.find?_isSome]
        exact ⟨a, ha, hpred⟩
      obtain ⟨dom, hdom⟩ := Option.isSome_iff_exists.mp hfind
      exact ⟨_, (mem_generateRecommendations_iff assets tv outcome h _).mpr
        (Or.inr (Or.inl ⟨dom, hdom, rfl⟩)), rfl, rfl⟩
  · intro a ha d hd fp hfp
    have hca := hc a ha
    have hchange_gt : ((fp.predicted_price - a.currentPrice) / a.currentPrice * 100 > 20)
        ↔ fp.predicted_price > 6/5 * a.currentPrice := by
      rw [gt_iff_lt, div_mul_eq_mul_div, lt_div_iff₀ hca, gt_iff_lt]
      constructor <;> intro <;> nlinarith
    have hchange_lt : ((fp.predicted_price - a.currentPrice) / a.currentPrice * 100 < -15)
        ↔ fp.predicted_price < 17/20 * a.currentPrice := by
      rw [div_mul_eq_mul_div, div_lt_iff₀ hca]
      constructor <;> intro <;> nlinarith
    constructor
    · constructor
      · rintro ⟨r, hr, htype, _, hsym⟩
        rcases (mem_generateRecommendations_iff assets tv outcome h r).mp hr with
          ⟨_, hr2⟩ | ⟨dom, _, hr2⟩ | ⟨a2, ha2, d2, hd2, har⟩
        · rw [hr2] at htype
          simp at htype
        · rw [hr2] at htype
          simp at htype
        · have hsa2 := (assetRec_eq_some har).2.1
          have haa : a2 = a :=
            symbol_injOn assets h ha2 ha (by rw [← hsa2, hsym])
          subst haa
          have hdd : d2 = d := by
            rw [hd] at hd2
            exact (Option.some.inj hd2).symm
          subst hdd
          rw [assetRec_spec a2 d2 fp hfp] at har
          split_ifs at har with h1 h2
          · exact hchange_gt.mp h1
          · cases har
            simp at htype
      · intro hup
        have har : assetRec a d =
            some { type := "opportunity", priority := "high", symbol := a.symbol } := by
          rw [assetRec_spec a d fp hfp, if_pos (hchange_gt.mpr hup)]
        exact ⟨_, (mem_generateRecommendations_iff assets tv outcome h _).mpr
          (Or.inr (Or.inr ⟨a, ha, d, hd, har⟩)), rfl, rfl, rfl⟩
    · constructor
      · rintro ⟨r, hr, htype, _, hsym⟩
        rcases (mem_generateRecommendations_iff assets tv outcome h r).mp hr with
          ⟨_, hr2⟩ | ⟨dom, _, hr2⟩ | ⟨a2, ha2, d2, hd2, har⟩
        · rw [hr2] at htype
          simp at htype
        · rw [hr2] at htype
          simp at htype
        · have hsa2 := (assetRec_eq_some har).2.1
          have haa : a2 = a :=
            symbol_injOn assets h ha2 ha (by rw [← hsa2, hsym])
          subst haa
          have hdd : d2 = d := by
            rw [hd] at hd2
            exact (Option.some.inj hd2).symm
          subst hdd
          rw [assetRec_spec a2 d2 fp hfp] at har
          split_ifs at har with h1 h2
          · cases har
            simp at htype
          · exact hchange_lt.mp h2
      · intro hdown
        have hnotup : ¬((fp.predicted_price - a.currentPrice) / a.currentPrice * 100 > 20) := by
          intro hgt
          have := hchange_gt.mp hgt
          nlinarith
        have har : assetRec a d =
            some { type := "warning", priority := "high", symbol := a.symbol } := by
          rw [assetRec_spec a d fp hfp, if_neg hnotup, if_pos (hchange_lt.mpr hdown)]
        exact ⟨_, (mem_generateRecommendations_iff assets tv outcome h _).mpr
          (Or.inr (Or.inr ⟨a, ha, d, hd, har⟩)), rfl, rfl, rfl⟩
  · rw [generateRecommendations_decomp assets tv outcome h,
      List.pairwise_append, List.pairwise_append]
    refine ⟨⟨?_, ?_, ?_⟩, ?_, ?_⟩
    · by_cases hlen : assets.length < 3
      · rw [if_pos hlen]
        exact List.pairwise_singleton _ _
      · rw [if_neg hlen]
        exact List.Pairwise.nil
    · rcases hfind : assets.find?
          (fun a => decide (a.amount * a.currentPrice / tv > 3/5)) with _ | dom
      · rw [hfind]
        exact List.Pairwise.nil
      · rw [hfind]
        exact List.pairwise_singleton _ _
    · intro r hr r2 hr2
      have h1 : r.type = "diversification" := by
        by_cases hlen : assets.length < 3
        · rw [if_pos hlen, List.mem_singleton] at hr
          rw [hr]
        · rw [if_neg hlen] at hr
          cases hr
      have h2 : r2.type = "concentration" := by
        rcases hfind : assets.find?
            (fun a => decide (a.amount * a.currentPrice / tv > 3/5)) with _ | dom
        · rw [hfind] at hr2
          cases hr2
        · rw [hfind, List.mem_singleton] at hr2
          rw [hr2]
      rintro ⟨ht, _⟩
      rw [h1, h2] at ht
      exact absurd ht (by decide)
    · refine List.Pairwise.filterMap (fun a => (outcome a).bind (assetRec a))
        ?_ (List.pairwise_map.mp h)
      intro a a2 hne b hb b2 hb2
      simp only [Option.mem_def, Option.bind_eq_some] at hb hb2
      obtain ⟨d, _, hbd⟩ := hb
      obtain ⟨d2, _, hbd2⟩ := hb2
      rintro ⟨_, hsym⟩
      have hs1 := (assetRec_eq_some hbd).2.1
      have hs2 := (assetRec_eq_some hbd2).2.1
      exact hne (by rw [← hs1, ← hs2, hsym])
    · intro r hr r2 hr2
      have h1 : r.type = "diversification" ∨ r.type = "concentration" := by
        rw [List.mem_append] at hr
        rcases hr with hr | hr
        · left
          by_cases hlen : assets.length < 3
          · rw [if_pos hlen, List.mem_singleton] at hr
            rw [hr]
          · rw [if_neg hlen] at hr
            cases hr
        · right
          rcases hfind : assets.find?
              (fun a => decide (a.amount * a.currentPrice / tv > 3/5)) with _ | dom
          · rw [hfind] at hr
            cases hr
          · rw [hfind, List.mem_singleton] at hr
            rw [hr]
      have h2 : r2.type = "opportunity" ∨ r2.type = "warning" := by
        rw [List.mem_filterMap] at hr2
        obtain ⟨a, _, hfa⟩ := hr2
        rcases ho : outcome a with _ | d
        · rw [ho] at hfa
          cases hfa
        · rw [ho, Option.some_bind] at hfa
          exact (assetRec_eq_some hfa).2.2
      rintro ⟨ht, _⟩
      rcases h1 with h1 | h1 <;> rcases h2 with h2 | h2 <;> rw [h1, h2] at ht <;>
        exact absurd ht (by decide)

/-- Witness for C4: a two-asset portfolio (diversification fires) in which
BTC holds 300 of the 420 total (over 60 %, concentration fires). -/
theorem C4_recommendation_rules_witness :
    (∃ r ∈ generateRecommendations [wA, wB] 420 (buildPredictions [wA, wB] wOutcome),
      r.type = "diversification" ∧ r.priority = "high") ∧
    (∃ r ∈ generateRecommendations [wA, wB] 420 (buildPredictions [wA, wB] wOutcome),
      r.type = "concentration" ∧ r.priority = "medium") := by
  have h := C4_recommendation_rules [wA, wB] 420 wOutcome (by decide) (by norm_num)
    (by intro a ha; fin_cases ha <;> norm_num [wA, wB])
  exact ⟨h.1.mpr (by decide), h.2.1.mpr ⟨wA, by simp, by norm_num [wA]⟩⟩

/-- C5: single-asset forecast failure is absorbed, not propagated — with a
prediction map built from per-asset fetch outcomes, each asset whose fetch
failed contributes amount × current_price to the predicted portfolio
value, while opportunity/warning recommendations are still produced for
the assets whose forecasts succeeded; the aggregation is a total function,
so one asset's failure never aborts it. -/
theorem C5_partial_failure_absorbed (assets : List Asset) (tv : ℚ)
    (outcome : Asset → Option PredictionData)
    (h : (assets.map Asset.symbol).Nodup)
    (hc : ∀ a ∈ assets, 0 < a.currentPrice)
    (_hfail : ∃ a ∈ assets, outcome a = none)
    (_hsucc : ∃ a ∈ assets, outcome a ≠ none) :
    calculatePredictedPortfolioValue assets (buildPredictions assets outcome) =
      (assets.map (fun a =>
        match outcome a with
        | some p => a.amount * ((orFallback p.lstm a.currentPrice
            + orFallback p.random_forest a.currentPrice
            + orFallback p.linear_regression a.currentPrice) / 3)
        | none => a.amount * a.currentPrice)).sum ∧
    (∀ a ∈ assets, ∀ d, outcome a = some d →
      ∀ fp, d.future_predictions.getLast? = some fp →
      (fp.predicted_price > 6/5 * a.currentPrice →
        ∃ r ∈ generateRecommendations assets tv (buildPredictions assets outcome),
          r.type = "opportunity" ∧ r.symbol = a.symbol) ∧
      (fp.predicted_price < 17/20 * a.currentPrice →
        ∃ r ∈ generateRecommendations assets tv (buildPredictions assets outcome),
          r.type = "warning" ∧ r.symbol = a.symbol)) := by
  constructor
  · rw [calculatePredictedPortfolioValue_eq_sum]
    congr 1
    apply List.map_congr_left
    intro a ha
    unfold predictedContribution
    rw [lookup_buildPredictions assets outcome h a ha]
  · intro a ha d hd fp hfp
    have hca := hc a ha
    constructor
    · intro hup
      have h1 : (fp.predicted_price - a.currentPrice) / a.currentPrice * 100 > 20 := by
        rw [gt_iff_lt, div_mul_eq_mul_div, lt_div_iff₀ hca]
        nlinarith
      have har : assetRec a d =
          some { type := "opportunity", priority := "high", symbol := a.symbol } := by
        rw [assetRec_spec a d fp hfp, if_pos h1]
      exact ⟨_, (mem_generateRecommendations_iff assets tv outcome h _).mpr
        (Or.inr (Or.inr ⟨a, ha, d, hd, har⟩)), rfl, rfl⟩
    · intro hdown
      have h1 : ¬((fp.predicted_price - a.currentPrice) / a.currentPrice * 100 > 20) := by
        rw [gt_iff_lt, div_mul_eq_mul_div, lt_div_iff₀ hca]
        nlinarith
      have h2 : (fp.predicted_price - a.currentPrice) / a.currentPrice * 100 < -15 := by
        rw [div_mul_eq_mul_div, div_lt_iff₀ hca]
        nlinarith
      have har : assetRec a d =
          some { type := "warning", priority := "high", symbol := a.symbol } := by
        rw [assetRec_spec a d fp hfp, if_neg h1, if_pos h2]
      exact ⟨_, (mem_generateRecommendations_iff assets tv outcome h _).mpr
        (Or.inr (Or.inr ⟨a, ha, d, hd, har⟩)), rfl, rfl⟩

/-- Witness for C5: three assets; ADA's fetch fails while BTC's succeeds
with a +33 % final path, and the aggregation both returns the fallback sum
and still emits BTC's opportunity recommendation. -/
theorem C5_partial_failure_absorbed_witness :
    (calculatePredictedPortfolioValue [wA, wB, wC]
        (buildPredictions [wA, wB, wC] wOutcome) =
      ([wA, wB, wC].map (fun a =>
        match wOutcome a with
        | some p => a.amount * ((orFallback p.lstm a.currentPrice
            + orFallback p.random_forest a.currentPrice
            + orFallback p.linear_regression a.currentPrice) / 3)
        | none => a.amount * a.currentPrice)).sum) ∧
    ∃ r ∈ generateRecommendations [wA, wB, wC] 431
        (buildPredictions [wA, wB, wC] wOutcome),
      r.type = "opportunity" ∧ r.symbol = wA.symbol := by
  have h := C5_partial_failure_absorbed [wA, wB, wC] 431 wOutcome (by decide)
    (by intro a ha; fin_cases ha <;> norm_num [wA, wB, wC])
    ⟨wC, by simp, rfl⟩ ⟨wA, by simp, by simp [wOutcome, wA]⟩
  exact ⟨h.1, (h.2 wA (by simp) wPredA rfl ⟨200, 65⟩ rfl).1 (by norm_num [wA])⟩

/-- The fuse example of §8 of the spec: linear predicts 100, the tree
ensemble 110, the sequence model is absent. -/
def exampleFusePreds : ModelKind → Option ModelPrediction := fun k =>
  match k with
  | .linear => some { predicted_price := 100, confidence := 80 }
  | .tree_ensemble => some { predicted_price := 110, confidence := 90 }
  | .sequence => none

/-- C1: fusion excludes absent models from the arithmetic mean rather
than coercing them to a default — the fused price (and confidence) is the
mean of only the present predictions, with divisor the number of present
entries; fusing {linear: 100, tree: 110} with the sequence model absent
yields fused_price = 105, and fusing an empty mapping fails with
NoModelsAvailableError. -/
theorem C1_fuse_mean_of_present (preds : ModelKind → Option ModelPrediction) :
    (presentPredictions preds ≠ [] →
      fuse preds = .ok
        { fused_price :=
            ((presentPredictions preds).map ModelPrediction.predicted_price).sum
              / ((presentPredictions preds).length : ℚ),
          fused_confidence :=
            ((presentPredictions preds).map ModelPrediction.confidence).sum
              / ((presentPredictions preds).length : ℚ) }) ∧
    ((∀ k, preds k = none) → fuse preds = .error .NoModelsAvailableError) ∧
    fuse exampleFusePreds = .ok { fused_price := 105, fused_confidence := 85 } ∧
    fuse (fun _ => none) = .error .NoModelsAvailableError := by
  refine ⟨?_, ?_, ?_, ?_⟩
  · intro hne
    unfold fuse
    rw [if_neg (by simpa using hne)]
  · intro hnone
    unfold fuse
    have hp : presentPredictions preds = [] := by
      simp [presentPredictions, hnone]
    rw [hp]
    rfl
  · have hps : presentPredictions exampleFusePreds =
        [{ predicted_price := 110, confidence := 90 },
         { predicted_price := 100, confidence := 80 }] := rfl
    unfold fuse
    rw [hps]
    norm_num [Fused.mk.injEq]
  · rfl

/-- Witness for C1 at the §8 example mapping. -/
theorem C1_fuse_mean_of_present_witness :
    presentPredictions exampleFusePreds ≠ [] ∧
    fuse exampleFusePreds = .ok
      { fused_price :=
          ((presentPredictions exampleFusePreds).map ModelPrediction.predicted_price).sum
            / ((presentPredictions exampleFusePreds).length : ℚ),
        fused_confidence :=
          ((presentPredictions exampleFusePreds).map ModelPrediction.confidence).sum
            / ((presentPredictions exampleFusePreds).length : ℚ) } :=
  ⟨by simp [presentPredictions, exampleFusePreds],
   (C1_fuse_mean_of_present exampleFusePreds).1
     (by simp [presentPredictions, exampleFusePreds])⟩

/-- C9: the forecast generator computes, for 1-indexed step i,
predicted_price[i] = current_price + (fused_price − current_price) ·
(i / horizon_days) and confidence[i] = max(50, fused_confidence −
decay_rate·i); generate_path(100, 110, 90, 4) yields a 4-step path with
strictly increasing prices ending at 110 and non-increasing confidences
never below 50. -/
theorem C9_generate_path_spec (cp fpr fc : ℚ) (n : ℤ) (hn : 0 < n) :
    (∃ path, generate_path cp fpr fc n = .ok path ∧ path.length = n.toNat ∧
      ∀ i : ℕ, i < n.toNat →
        path[i]? = some
          { predicted_price := cp + (fpr - cp) * (((i : ℚ) + 1) / (n : ℚ)),
            confidence := max 50 (fc - decayRate * ((i : ℚ) + 1)) }) ∧
    (∃ p4, generate_path 100 110 90 4 = .ok p4 ∧ p4.length = 4 ∧
      List.Chain' (· < ·) (p4.map PathStep.predicted_price) ∧
      (p4.map PathStep.predicted_price).getLast? = some 110 ∧
      List.Chain' (· ≥ ·) (p4.map PathStep.confidence) ∧
      ∀ s ∈ p4, 50 ≤ s.confidence) := by
  constructor
  · refine ⟨(List.range n.toNat).map (fun (j : ℕ) =>
      { predicted_price := cp + (fpr - cp) * (((j : ℚ) + 1) / (n : ℚ)),
        confidence := max 50 (fc - decayRate * ((j : ℚ) + 1)) }), ?_, ?_, ?_⟩
    · unfold generate_path
      rw [if_neg (not_le.mpr hn)]
    · simp
    · intro i hi
      rw [List.getElem?_map, List.getElem?_range hi]
      rfl
  · refine ⟨[⟨205/2, 179/2⟩, ⟨105, 89⟩, ⟨215/2, 177/2⟩, ⟨110, 88⟩],
      ?_, by simp, ?_, by simp, ?_, ?_⟩
    · unfold generate_path decayRate
      rw [if_neg (by norm_num)]
      have h4 : List.range (Int.toNat 4) = [0, 1, 2, 3] := rfl
      rw [h4]
      simp only [List.map_cons, List.map_nil]
      norm_num [max_def, PathStep.mk.injEq]
    · simp only [List.map_cons, List.map_nil, List.chain'_cons,
        List.chain'_singleton, and_true]
      norm_num
    · simp only [List.map_cons, List.map_nil, List.chain'_cons,
        List.chain'_singleton, and_true, ge_iff_le]
      norm_num
    · intro s hs
      fin_cases hs <;> norm_num

/-- Witness for C9 at horizon 4. -/
theorem C9_generate_path_spec_witness :
    ∃ path, generate_path 100 110 90 4 = .ok path ∧ path.length = (4 : ℤ).toNat ∧
      ∀ i : ℕ, i < (4 : ℤ).toNat →
        path[i]? = some
          { predicted_price := 100 + (110 - 100) * (((i : ℚ) + 1) / ((4 : ℤ) : ℚ)),
            confidence := max 50 (90 - decayRate * ((i : ℚ) + 1)) } :=
  (C9_generate_path_spec 100 110 90 4 (by decide)).1

end CryptoNova
